import Mathlib

/-!
Verification of the detection post-processing and scoring pipeline of the
Focus-Object-Detection-in-Video-Interviews repository.

The embedding below is a shallow model of the `useObjectDetection` hook
(src/unnamed/part_007).  JavaScript numbers are modelled as rationals (ℚ);
the detector, the DOM video element and the 2D canvas are modelled as plain
data.  Bounding boxes are the four slots of the source's `bbox` array:
slot 0 = x, slot 1 = y, slot 2 = width, slot 3 = height.
-/

namespace FocusGuard

/-- A bounding box, the four slots of the source's `bbox` array
`[x, y, width, height]`. -/
structure Box where
  x : ℚ
  y : ℚ
  w : ℚ
  h : ℚ
deriving DecidableEq

/-- A detector prediction: `{class, score, bbox}` as produced by the
coco-ssd detector and flowing through the whole pipeline. -/
structure Pred where
  cls : String
  score : ℚ
  bbox : Box
deriving DecidableEq

/-- JavaScript `Math.round`: round half up, i.e. `⌊q + 1/2⌋`. -/
def jsRound (q : ℚ) : ℤ := ⌊q + 1/2⌋

/-! ### Geometry utility (`calculateIoU`, part_007 lines 276–304) -/

/-- The empty-intersection branch condition of `calculateIoU`:
`intersect_x2 <= intersect_x1 || intersect_y2 <= intersect_y1`. -/
def iouEmptyBranch (bbox1 bbox2 : Box) : Prop :=
  min (bbox1.x + bbox1.w) (bbox2.x + bbox2.w) ≤ max bbox1.x bbox2.x ∨
  min (bbox1.y + bbox1.h) (bbox2.y + bbox2.h) ≤ max bbox1.y bbox2.y

instance (bbox1 bbox2 : Box) : Decidable (iouEmptyBranch bbox1 bbox2) := by
  unfold iouEmptyBranch; infer_instance

/-- `intersect_area` of `calculateIoU`. -/
def iouIntersectArea (bbox1 bbox2 : Box) : ℚ :=
  (min (bbox1.x + bbox1.w) (bbox2.x + bbox2.w) - max bbox1.x bbox2.x) *
  (min (bbox1.y + bbox1.h) (bbox2.y + bbox2.h) - max bbox1.y bbox2.y)

/-- `union_area = bbox1_area + bbox2_area - intersect_area` of `calculateIoU`. -/
def iouUnionArea (bbox1 bbox2 : Box) : ℚ :=
  bbox1.w * bbox1.h + bbox2.w * bbox2.h - iouIntersectArea bbox1 bbox2

/-- `calculateIoU(bbox1, bbox2)` (part_007 lines 276–304): intersection over
union of two axis-aligned boxes; returns 0 on the empty-intersection branch. -/
def calculateIoU (bbox1 bbox2 : Box) : ℚ :=
  if iouEmptyBranch bbox1 bbox2 then 0
  else iouIntersectArea bbox1 bbox2 / iouUnionArea bbox1 bbox2

/-! ### Mobile validator (`validateMobileDetection`, part_007 lines 213–231) -/

/-- `validateMobileDetection(prediction)` (part_007 lines 213–231).

The source destructures `const [width, height] = prediction.bbox`, i.e. it
reads the FIRST TWO slots of the bbox array, which hold x and y — not the
width/height slots 2 and 3.  The model reproduces exactly that: `width`
below is `bbox.x` and `height` is `bbox.y`. -/
def validateMobileDetection (prediction : Pred) : Bool :=
  let width := prediction.bbox.x
  let height := prediction.bbox.y
  let aspectRatio := width / height
  let isValidAspectRatio :=
    (decide (aspectRatio ≥ 35/100) && decide (aspectRatio ≤ 75/100)) ||
    (decide (aspectRatio ≥ 14/10) && decide (aspectRatio ≤ 28/10))
  let minArea : ℚ := 1200
  let area := width * height
  let hasValidSize := decide (area ≥ minArea)
  let hasValidConfidence := decide (prediction.score ≥ 25/100)
  isValidAspectRatio && hasValidSize && hasValidConfidence

/-! ### Suppressor (`applyNMS`, part_007 lines 234–273) -/

/-- The suppression test inside `processPredictions`:
`iou > threshold && sorted[i].class === sorted[j].class`, with `p` the kept
prediction (`sorted[i]`) and `q` the candidate (`sorted[j]`). -/
def suppresses (threshold : ℚ) (p q : Pred) : Bool :=
  decide (calculateIoU p.bbox q.bbox > threshold) && (p.cls == q.cls)

/-- One step of the stable descending-by-score insertion used to model the
JavaScript stable `sort((a, b) => b.score - a.score)`. -/
def insertByScore (p : Pred) : List Pred → List Pred
  | [] => [p]
  | q :: qs => if q.score ≤ p.score then p :: q :: qs else q :: insertByScore p qs

/-- `[...preds].sort((a, b) => b.score - a.score)`: stable sort, descending
by score, ties keeping the original order. -/
def sortByScoreDesc (preds : List Pred) : List Pred :=
  preds.foldr insertByScore []

/-- The greedy keep/suppress loop of `processPredictions`: a candidate is
dropped iff some earlier kept prediction suppresses it. -/
def nmsLoop (threshold : ℚ) (kept : List Pred) : List Pred → List Pred
  | [] => []
  | q :: rest =>
    if kept.any (fun p => suppresses threshold p q) then nmsLoop threshold kept rest
    else q :: nmsLoop threshold (q :: kept) rest

/-- `processPredictions(preds, threshold)` inside `applyNMS`: sort descending
by score, then greedily keep and suppress. -/
def processPredictions (preds : List Pred) (threshold : ℚ) : List Pred :=
  nmsLoop threshold [] (sortByScoreDesc preds)

/-- `applyNMS(predictions, iouThreshold)` (part_007 lines 234–273): lists of
length ≤ 1 pass through; otherwise mobile ("cell phone") and other
predictions are suppressed separately, mobiles with the fixed stricter
threshold 0.2, the rest with `iouThreshold`. -/
def applyNMS (predictions : List Pred) (iouThreshold : ℚ) : List Pred :=
  if predictions.length ≤ 1 then predictions
  else
    let mobilePreds := predictions.filter (fun p => p.cls == "cell phone")
    let otherPreds := predictions.filter (fun p => !(p.cls == "cell phone"))
    processPredictions mobilePreds (2/10) ++ processPredictions otherPreds iouThreshold

/-! ### Temporal smoother (`applyTemporalSmoothing`, part_007 lines 307–385) -/

/-- One entry of `detectionHistoryRef`: `{timestamp, predictions}`. -/
structure HistoryEntry where
  timestamp : ℚ
  predictions : List Pred
deriving DecidableEq

/-- One entry of `mobileDetectionHistory`: `{timestamp, bbox, confidence}`. -/
structure MobileEntry where
  timestamp : ℚ
  bbox : Box
  confidence : ℚ
deriving DecidableEq

/-- The class-specific IoU match threshold of the smoother:
`pred.class === "cell phone" ? 0.4 : 0.5`. -/
def matchThreshold (cls : String) : ℚ :=
  if cls = "cell phone" then 4/10 else 5/10

/-- The `similarDetections` set of `applyTemporalSmoothing` (part_007 lines
348–355): all predictions across the pruned history (current frame included)
of the same class whose IoU with `prediction` strictly exceeds the
class-specific match threshold. -/
def similarDetections (prunedHistory : List HistoryEntry) (prediction : Pred) :
    List Pred :=
  ((prunedHistory.map (·.predictions)).flatten).filter fun pred =>
    pred.cls == prediction.cls &&
      decide (calculateIoU pred.bbox prediction.bbox > matchThreshold pred.cls)

/-- `applyTemporalSmoothing(currentPredictions)` (part_007 lines 307–385),
with the two mutable history refs made explicit state.  Returns the smoothed
predictions together with the updated detection history and mobile history. -/
def applyTemporalSmoothing (detectionHistory : List HistoryEntry)
    (mobileHistory : List MobileEntry) (currentPredictions : List Pred)
    (now : ℚ) : List Pred × List HistoryEntry × List MobileEntry :=
  let historyWindow : ℚ := 600
  let hist :=
    (detectionHistory ++ [(⟨now, currentPredictions⟩ : HistoryEntry)]).filter fun entry =>
      decide (now - entry.timestamp ≤ historyWindow)
  let mobilePreds := currentPredictions.filter (fun p => p.cls == "cell phone")
  let mhist :=
    (mobileHistory ++ mobilePreds.map fun pred =>
      (⟨now, pred.bbox, pred.score⟩ : MobileEntry)).filter fun entry =>
      decide (now - entry.timestamp ≤ historyWindow)
  if hist.length < 2 then (currentPredictions, hist, mhist)
  else
    let smoothedPredictions := currentPredictions.map fun prediction =>
      let similar := similarDetections hist prediction
      if similar.length ≥ 2 then
        let n : ℚ := similar.length
        let avgScore := (similar.map (·.score)).foldl (· + ·) 0 / n
        let avgBbox : Box :=
          ⟨(similar.map (·.bbox.x)).foldl (· + ·) 0 / n,
           (similar.map (·.bbox.y)).foldl (· + ·) 0 / n,
           (similar.map (·.bbox.w)).foldl (· + ·) 0 / n,
           (similar.map (·.bbox.h)).foldl (· + ·) 0 / n⟩
        let confidenceBoost : ℚ :=
          if prediction.cls == "cell phone" then 115/100 else 110/100
        { prediction with score := min 1 (avgScore * confidenceBoost),
                          bbox := avgBbox }
      else prediction
    (smoothedPredictions, hist, mhist)

/-! ### Attention scorer (part_007 lines 486–577) -/

/-- The published metrics snapshot `FocusMetrics` (all four values go through
`Math.round`, hence integers). -/
structure FocusMetrics where
  focusScore : ℤ
  eyeContactScore : ℤ
  headPoseScore : ℤ
  overallAttention : ℤ
deriving DecidableEq

/-- The secondary-computer classes of the scorer. -/
def computerClasses : List String := ["laptop", "tablet", "keyboard", "mouse", "monitor"]

/-- The distracting-object classes of the scorer. -/
def distractingClasses : List String := ["bottle", "cup", "book", "remote", "tv"]

/-- The raw (pre-rounding) `focusScore` (part_007 lines 499–525): base 80,
confidence-scaled penalties per mobile / computer / distracting detection,
+5 bonus for a single confident person, clamped to [0, 100]. -/
def rawFocusScore (preds : List Pred) : ℚ :=
  let personDetections := preds.filter (fun p => p.cls == "person")
  let mobileDevices := preds.filter (fun p => p.cls == "cell phone")
  let computerDevices := preds.filter (fun p => computerClasses.contains p.cls)
  let distractingObjects := preds.filter (fun p => distractingClasses.contains p.cls)
  let f0 : ℚ := 80
  let f1 := f0 - mobileDevices.foldl
    (fun penalty device => penalty + 35 * min (15/10) (device.score * (15/10))) 0
  let f2 := f1 - computerDevices.foldl (fun penalty device => penalty + device.score * 15) 0
  let f3 := f2 - distractingObjects.foldl (fun penalty obj => penalty + obj.score * 8) 0
  let f4 := match personDetections with
    | [person] => if person.score > 7/10 then f3 + 5 else f3
    | _ => f3
  max 0 (min 100 f4)

/-- The raw (pre-rounding) `eyeContactScore` (part_007 lines 528–552). -/
def rawEyeContactScore (preds : List Pred) (frameW : ℚ) : ℚ :=
  let personDetections := preds.filter (fun p => p.cls == "person")
  let mobileDevices := preds.filter (fun p => p.cls == "cell phone")
  match personDetections with
  | [] => 20
  | [person] =>
    let centeredness := 1 - |(person.bbox.x + person.bbox.w / 2) / frameW - 5/10|
    let e := min 100 (60 + person.score * 25 + centeredness * 15)
    if mobileDevices.length > 0 then e - 20 else e
  | ps => max 30 (100 - ((ps.length : ℚ) - 1) * 25)

/-- The raw (pre-rounding) `headPoseScore` (part_007 lines 555–568). -/
def rawHeadPoseScore (preds : List Pred) (frameW frameH : ℚ) : ℚ :=
  let personDetections := preds.filter (fun p => p.cls == "person")
  let mobileDevices := preds.filter (fun p => p.cls == "cell phone")
  match personDetections with
  | [person] =>
    let faceSize := person.bbox.w * person.bbox.h / (frameW * frameH)
    let sizeScore := min 40 (faceSize * 1000)
    let h := min 100 (50 + person.score * 30 + sizeScore)
    if mobileDevices.length > 0 then h - 15 else h
  | _ => 60

/-- `newFocusMetrics` (part_007 lines 570–577): the three raw scores and the
overall attention, each published through `Math.round`; the overall score is
the rounded mean of the three UNROUNDED scores. -/
def computeFocusMetrics (preds : List Pred) (frameW frameH : ℚ) : FocusMetrics :=
  let focusScore := rawFocusScore preds
  let eyeContactScore := rawEyeContactScore preds frameW
  let headPoseScore := rawHeadPoseScore preds frameW frameH
  { focusScore := jsRound focusScore
    eyeContactScore := jsRound eyeContactScore
    headPoseScore := jsRound headPoseScore
    overallAttention := jsRound ((focusScore + eyeContactScore + headPoseScore) / 3) }

/-! ### Detection events and the bounded log (part_007 lines 458–483, 581–586) -/

/-- A logged `Detection` event.  The `description` field of the source embeds
the confidence as a percentage with one decimal (`toFixed(1)`); that string
formatting is not modelled — the model keeps the class-based text only.  No
claim reads `description`. -/
structure Detection where
  id : String
  timestamp : ℚ
  type : String
  confidence : ℚ
  bbox : Box
  description : String
deriving DecidableEq

/-- `pat` occurs at the head of the character list. -/
def charsLead : List Char → List Char → Bool
  | [], _ => true
  | _ :: _, [] => false
  | a :: pat, b :: s => a == b && charsLead pat s

/-- `pat` occurs somewhere within the character list. -/
def charsWithin (pat : List Char) : List Char → Bool
  | [] => charsLead pat []
  | b :: s => charsLead pat (b :: s) || charsWithin pat s

/-- JavaScript `String.prototype.includes`. -/
def strIncludes (s pat : String) : Bool := charsWithin pat.data s.data

/-- JavaScript `toLowerCase`, modelled character-wise. -/
def strToLower (s : String) : String := ⟨s.data.map Char.toLower⟩

/-- `getDetectionType(className)` (part_007 lines 616–634). -/
def getDetectionType (className : String) : Option String :=
  let lowerClass := strToLower className
  if strIncludes lowerClass "phone" || strIncludes lowerClass "cell" then some "mobile"
  else if lowerClass == "person" then some "person"
  else if strIncludes lowerClass "laptop" || strIncludes lowerClass "tablet" ||
          strIncludes lowerClass "keyboard" || strIncludes lowerClass "mouse" ||
          strIncludes lowerClass "monitor" || strIncludes lowerClass "tv" then
    some "unknown_object"
  else some "unknown_object"

/-- The `smoothedPredictions.forEach` loop building `newDetections`
(part_007 lines 461–483): one event per prediction whose class maps to a
detection type. -/
def mkDetections (smoothedPredictions : List Pred) (now : ℚ) : List Detection :=
  smoothedPredictions.enum.filterMap fun ip =>
    (getDetectionType ip.2.cls).map fun detectionType =>
      { id := toString now ++ "-" ++ toString ip.1
        timestamp := now
        type := detectionType
        confidence := ip.2.score
        bbox := ip.2.bbox
        description := ip.2.cls ++ " detected" }

/-- JavaScript `Array.prototype.slice(-n)`: the last `min n length` elements. -/
def takeLast (n : ℕ) (l : List Detection) : List Detection :=
  l.drop (l.length - n)

/-- The event-log update (part_007 lines 581–586):
`if (newDetections.length > 0) setDetections(prev => [...prev, ...newDetections].slice(-50))`. -/
def updateDetections (prev newDetections : List Detection) : List Detection :=
  if newDetections.isEmpty then prev else takeLast 50 (prev ++ newDetections)

/-! ### Frame preprocessor (`preprocessVideo`, part_007 lines 159–210) -/

/-- The observable part of an `HTMLVideoElement`. -/
structure Video where
  readyState : ℕ
  videoWidth : ℚ
  videoHeight : ℚ
deriving DecidableEq

/-- The observable part of the preprocessed canvas: its dimensions.  The
per-pixel contrast/brightness transform of the source only changes pixel
data, which no modelled observable depends on, so it is not modelled. -/
structure Canvas where
  width : ℚ
  height : ℚ
deriving DecidableEq

/-- `preprocessVideo(videoElement)` (part_007 lines 159–210): `null` when the
frame is not decodable (`readyState < 2`), otherwise a canvas bounded to 640
pixels on the larger side, preserving aspect ratio.  The source can also
return `null` when `canvas.getContext("2d")` fails; the 2D context is assumed
available here. -/
def preprocessVideo (v : Video) : Option Canvas :=
  if v.readyState < 2 then none
  else
    let maxSize : ℚ := 640
    let aspectRatio := v.videoWidth / v.videoHeight
    if aspectRatio > 1 then
      let w := min maxSize v.videoWidth
      some ⟨w, w / aspectRatio⟩
    else
      let h := min maxSize v.videoHeight
      some ⟨h * aspectRatio, h⟩

/-! ### Detection orchestrator (`detectObjects`, part_007 lines 387–614) -/

/-- The `relevantClasses` per-class confidence thresholds with the `|| 0.5`
fallback for unknown classes (part_007 lines 424–441). -/
def relevantClassThreshold (cls : String) : ℚ :=
  if cls = "cell phone" then 25/100
  else if cls = "person" then 5/10
  else if cls = "laptop" then 6/10
  else if cls = "tablet" then 5/10
  else if cls = "book" then 3/10
  else if cls = "bottle" then 4/10
  else if cls = "cup" then 4/10
  else if cls = "mouse" then 5/10
  else if cls = "keyboard" then 6/10
  else if cls = "remote" then 4/10
  else if cls = "tv" then 6/10
  else if cls = "monitor" then 6/10
  else 5/10

/-- The mutable state owned by the hook: the loaded-model flag, the in-flight
flag, the throttle timestamp, both history refs, the bounded event log and
the metrics snapshot. -/
structure OrchState where
  modelLoaded : Bool
  isDetecting : Bool
  lastDetectionTime : ℚ
  detectionHistory : List HistoryEntry
  mobileHistory : List MobileEntry
  detections : List Detection
  focusMetrics : FocusMetrics
deriving DecidableEq

/-- The result object returned by a successful `detectObjects` pass. -/
structure PipelineResult where
  predictions : List Pred
  newDetections : List Detection
  mobileCount : ℕ
  personCount : ℕ
  totalDevices : ℕ
deriving DecidableEq

/-- A `detectObjects` invocation outcome: the returned value, the state after
the call, and two ghost flags recording whether a preprocessed canvas was
created and whether `processedCanvas.remove()` ran before the pass ended. -/
structure DetectOutcome where
  result : Option PipelineResult
  state : OrchState
  canvasCreated : Bool
  canvasReleased : Bool
deriving DecidableEq

/-- The successful body of `detectObjects` after the detector returned
(part_007 lines 423–599): class filtering with mobile validation, NMS,
temporal smoothing, event creation, scoring, log update. -/
def detectCore (s : OrchState) (predictions : List Pred) (now frameW frameH : ℚ) :
    PipelineResult × OrchState :=
  let filteredPredictions := predictions.filter fun pred =>
    let threshold := relevantClassThreshold pred.cls
    if pred.cls == "cell phone" then
      decide (pred.score ≥ threshold) && validateMobileDetection pred
    else decide (pred.score ≥ threshold)
  let nmsFiltered := applyNMS filteredPredictions (3/10)
  let smoothed := applyTemporalSmoothing s.detectionHistory s.mobileHistory nmsFiltered now
  let smoothedPredictions := smoothed.1
  let newDetections := mkDetections smoothedPredictions now
  let personDetections := smoothedPredictions.filter (fun p => p.cls == "person")
  let mobileDevices := smoothedPredictions.filter (fun p => p.cls == "cell phone")
  let computerDevices := smoothedPredictions.filter (fun p => computerClasses.contains p.cls)
  let newFocusMetrics := computeFocusMetrics smoothedPredictions frameW frameH
  ({ predictions := smoothedPredictions
     newDetections := newDetections
     mobileCount := mobileDevices.length
     personCount := personDetections.length
     totalDevices := mobileDevices.length + computerDevices.length },
   { s with detectionHistory := smoothed.2.1
            mobileHistory := smoothed.2.2
            detections := updateDetections s.detections newDetections
            focusMetrics := newFocusMetrics })

/-- `detectObjects(videoElement)` (part_007 lines 387–614).  `now` is
`Date.now()`; `detectResult` is what `modelRef.current.detect` produces
(`none` models the call throwing, caught at line 600).  The in-flight flag is
set inside the try and always reset in the finally, so across a complete
synchronous invocation it is unchanged; the guards and the throttle check run
before any state is touched. -/
def detectObjects (s : OrchState) (v : Video) (now : ℚ)
    (detectResult : Option (List Pred)) : DetectOutcome :=
  if s.modelLoaded = false ∨ v.readyState < 2 ∨ s.isDetecting = true then
    ⟨none, s, false, false⟩
  else if now - s.lastDetectionTime < 100 then
    ⟨none, s, false, false⟩
  else
    let s1 := { s with lastDetectionTime := now }
    match preprocessVideo v with
    | none =>
      -- inputElement === videoElement: the not-decodable early return
      -- (unreachable here: preprocessVideo only fails for readyState < 2,
      -- already rejected by the first guard)
      if v.videoWidth = 0 ∨ v.videoHeight = 0 then ⟨none, s1, false, false⟩
      else
        match detectResult with
        | none => ⟨none, s1, false, false⟩
        | some preds =>
          let r := detectCore s1 preds now v.videoWidth v.videoHeight
          ⟨some r.1, r.2, false, false⟩
    | some processedCanvas =>
      match detectResult with
      | none =>
        -- the detector call throws: control jumps to the catch block and the
        -- cleanup `processedCanvas.remove()` (lines 588–591) never runs
        ⟨none, s1, true, false⟩
      | some preds =>
        let r := detectCore s1 preds now processedCanvas.width processedCanvas.height
        ⟨some r.1, r.2, true, true⟩

/-! ### Concrete instances used by witnesses and counterexamples -/

/-- A square device-class prediction (width = height = 100) at x = 40,
y = 100, confidence 0.9. -/
def squareCellPhone : Pred := ⟨"cell phone", 9/10, ⟨40, 100, 100, 100⟩⟩

/-- A portrait device-class prediction (width/height = 0.5, area 5000 px²,
confidence 0.9) at x = y = 100. -/
def portraitCellPhone : Pred := ⟨"cell phone", 9/10, ⟨100, 100, 50, 100⟩⟩

/-- A device-class prediction used by the C2 counterexample pass. -/
def mobileCex : Pred := ⟨"cell phone", 416/525, ⟨30, 60, 50, 100⟩⟩

/-- A person prediction used by the C2 counterexample pass. -/
def personCex : Pred := ⟨"person", 77/125, ⟨270, 100, 100, 100⟩⟩

/-- The initial metrics snapshot of the hook. -/
def initMetrics : FocusMetrics := ⟨100, 100, 100, 100⟩

/-- A loaded, idle orchestrator with empty histories and log. -/
def idleState : OrchState := ⟨true, false, 0, [], [], [], initMetrics⟩

/-- A loaded orchestrator with a detection in flight. -/
def detectingState : OrchState := ⟨true, true, 0, [], [], [], initMetrics⟩

/-- A decodable 640×480 video frame. -/
def vid640 : Video := ⟨2, 640, 480⟩

/-- Four same-class predictions on which greedy NMS keeps fewer boxes at the
higher threshold 0.35 than at 0.3. -/
def nmsA : Pred := ⟨"person", 9/10, ⟨20, 34, 60, 100⟩⟩

/-- See `nmsA`. -/
def nmsB : Pred := ⟨"person", 8/10, ⟨0, 0, 100, 100⟩⟩

/-- See `nmsA`. -/
def nmsC : Pred := ⟨"person", 7/10, ⟨0, 0, 40, 100⟩⟩

/-- See `nmsA`. -/
def nmsD : Pred := ⟨"person", 6/10, ⟨60, 0, 40, 100⟩⟩

/-- A concrete box with positive dimensions. -/
def boxA : Box := ⟨0, 0, 2, 2⟩

/-- A concrete box overlapping `boxA`. -/
def boxB : Box := ⟨1, 1, 2, 2⟩

/-- A concrete box disjoint from `boxA`. -/
def boxC : Box := ⟨10, 10, 2, 2⟩

/-- A history prediction matching `probePred` (identical box, same class). -/
def histPred : Pred := ⟨"person", 3/4, ⟨0, 0, 10, 10⟩⟩

/-- The current prediction of the smoothing witness. -/
def probePred : Pred := ⟨"person", 1/2, ⟨0, 0, 10, 10⟩⟩

/-- A one-entry pruned history holding `histPred`. -/
def histOne : List HistoryEntry := [⟨0, [histPred]⟩]

/-- A dummy logged event used by the event-log witness. -/
def dummyDetection : Detection := ⟨"0-0", 0, "mobile", 9/10, ⟨0, 0, 10, 10⟩, "cell phone detected"⟩

/-- The degenerate box (0, 0, 0, 0). -/
def zeroBox : Box := ⟨0, 0, 0, 0⟩

/-! ## Helper lemmas

Evaluation facts for the string-indexed tables, so that `norm_num` never has
to reduce string comparisons itself. -/

/-- `matchThreshold` at the person class. -/
theorem matchThreshold_person : matchThreshold "person" = 5/10 := by
  rw [matchThreshold, if_neg (by decide)]

/-- `matchThreshold` at the device class. -/
theorem matchThreshold_cell : matchThreshold "cell phone" = 4/10 := by
  rw [matchThreshold, if_pos (by decide)]

/-- `relevantClassThreshold` at the person class. -/
theorem relevantThreshold_person : relevantClassThreshold "person" = 5/10 := by
  rw [relevantClassThreshold, if_neg (by decide), if_pos (by decide)]

/-- `relevantClassThreshold` at the device class. -/
theorem relevantThreshold_cell : relevantClassThreshold "cell phone" = 25/100 := by
  rw [relevantClassThreshold, if_pos (by decide)]

/-- String comparison fact. -/
theorem beq_person_person : ("person" == "person") = true := by decide

/-- String comparison fact. -/
theorem beq_person_cell : ("person" == "cell phone") = false := by decide

/-- String comparison fact. -/
theorem beq_cell_cell : ("cell phone" == "cell phone") = true := by decide

/-- String comparison fact. -/
theorem beq_cell_person : ("cell phone" == "person") = false := by decide

/-- Class-table fact. -/
theorem computer_not_person : computerClasses.contains "person" = false := by decide

/-- Class-table fact. -/
theorem computer_not_cell : computerClasses.contains "cell phone" = false := by decide

/-- Class-table fact. -/
theorem distracting_not_person : distractingClasses.contains "person" = false := by decide

/-- Class-table fact. -/
theorem distracting_not_cell : distractingClasses.contains "cell phone" = false := by decide

/-- Event-type fact. -/
theorem getDetectionType_cell : getDetectionType "cell phone" = some "mobile" := by decide

/-- Event-type fact. -/
theorem getDetectionType_person : getDetectionType "person" = some "person" := by decide

/-- Class-table fact. -/
theorem not_mem_computer_cell : ¬ ("cell phone" ∈ computerClasses) := by decide

/-- Class-table fact. -/
theorem not_mem_computer_person : ¬ ("person" ∈ computerClasses) := by decide

/-- Class-table fact. -/
theorem not_mem_distracting_cell : ¬ ("cell phone" ∈ distractingClasses) := by decide

/-- Class-table fact. -/
theorem not_mem_distracting_person : ¬ ("person" ∈ distractingClasses) := by decide

/-- `Math.round` keeps [0, 100] values inside [0, 100]. -/
theorem jsRound_bounds (q : ℚ) (h0 : 0 ≤ q) (h1 : q ≤ 100) :
    0 ≤ jsRound q ∧ jsRound q ≤ 100 := by
  unfold jsRound
  constructor
  · exact Int.le_floor.mpr (by push_cast; linarith)
  · have h2 : (⌊q + 1/2⌋ : ℤ) ≤ ⌊(100:ℚ) + 1/2⌋ := Int.floor_le_floor (by linarith)
    have h100 : (⌊(100:ℚ) + 1/2⌋ : ℤ) = 100 := by
      rw [Int.floor_eq_iff]
      constructor <;> norm_num
    omega

/-- The raw focus score is clamped to [0, 100] by construction. -/
theorem rawFocusScore_bounds (preds : List Pred) :
    0 ≤ rawFocusScore preds ∧ rawFocusScore preds ≤ 100 := by
  simp only [rawFocusScore]
  exact ⟨le_max_left 0 _, max_le (by norm_num) (min_le_left _ _)⟩

/-- The raw eye-contact score lies in [0, 100] whenever every prediction has
a non-negative confidence and a horizontally in-frame box. -/
theorem rawEyeContactScore_bounds (preds : List Pred) (W : ℚ) (hW : 0 < W)
    (hp : ∀ p ∈ preds, 0 ≤ p.score ∧ 0 ≤ p.bbox.x ∧ 0 ≤ p.bbox.w ∧
      p.bbox.x + p.bbox.w ≤ W) :
    0 ≤ rawEyeContactScore preds W ∧ rawEyeContactScore preds W ≤ 100 := by
  simp only [rawEyeContactScore]
  rcases hfil : preds.filter (fun p => p.cls == "person") with - | ⟨person, rest⟩
  · rw [hfil]
    norm_num
  · rcases rest with - | ⟨p2, rest2⟩
    · rw [hfil]
      have hmemf : person ∈ preds.filter (fun p => p.cls == "person") := by
        rw [hfil]; exact List.mem_cons_self _ _
      obtain ⟨hs, hx, hw, hxw⟩ := hp person (List.mem_of_mem_filter hmemf)
      have hc0 : 0 ≤ (person.bbox.x + person.bbox.w / 2) / W :=
        div_nonneg (by linarith) hW.le
      have hc1 : (person.bbox.x + person.bbox.w / 2) / W ≤ 1 := by
        rw [div_le_one hW]; linarith
      have habs : |(person.bbox.x + person.bbox.w / 2) / W - 5/10| ≤ 5/10 :=
        abs_le.mpr ⟨by linarith, by linarith⟩
      have hcen : 1/2 ≤ 1 - |(person.bbox.x + person.bbox.w / 2) / W - 5/10| := by
        linarith
      have hsc : 0 ≤ person.score * 25 := mul_nonneg hs (by norm_num)
      have hemin : (60:ℚ) ≤ min 100 (60 + person.score * 25 +
          (1 - |(person.bbox.x + person.bbox.w / 2) / W - 5/10|) * 15) :=
        le_min (by norm_num) (by nlinarith)
      have hemax : min 100 (60 + person.score * 25 +
          (1 - |(person.bbox.x + person.bbox.w / 2) / W - 5/10|) * 15) ≤ 100 :=
        min_le_left _ _
      split_ifs with hmob
      · constructor <;> linarith
      · constructor <;> linarith
    · rw [hfil]
      have hlen : (2:ℚ) ≤ ((person :: p2 :: rest2).length : ℚ) := by
        simp only [List.length_cons]
        push_cast
        have : (0:ℚ) ≤ (rest2.length : ℚ) := Nat.cast_nonneg _
        linarith
      have hnn : 0 ≤ (((person :: p2 :: rest2).length : ℚ) - 1) * 25 :=
        mul_nonneg (by linarith) (by norm_num)
      constructor
      · exact le_trans (by norm_num) (le_max_left 30 _)
      · exact max_le (by norm_num) (by linarith)

/-- The raw head-pose score lies in [0, 100] whenever every prediction has a
non-negative confidence and non-negative box dimensions. -/
theorem rawHeadPoseScore_bounds (preds : List Pred) (W H : ℚ) (hW : 0 < W) (hH : 0 < H)
    (hp : ∀ p ∈ preds, 0 ≤ p.score ∧ 0 ≤ p.bbox.w ∧ 0 ≤ p.bbox.h) :
    0 ≤ rawHeadPoseScore preds W H ∧ rawHeadPoseScore preds W H ≤ 100 := by
  simp only [rawHeadPoseScore]
  rcases hfil : preds.filter (fun p => p.cls == "person") with - | ⟨person, rest⟩
  · rw [hfil]
    norm_num
  · rcases rest with - | ⟨p2, rest2⟩
    · rw [hfil]
      have hmemf : person ∈ preds.filter (fun p => p.cls == "person") := by
        rw [hfil]; exact List.mem_cons_self _ _
      obtain ⟨hs, hw, hh⟩ := hp person (List.mem_of_mem_filter hmemf)
      have hface : 0 ≤ person.bbox.w * person.bbox.h / (W * H) :=
        div_nonneg (mul_nonneg hw hh) (mul_nonneg hW.le hH.le)
      have hsize0 : (0:ℚ) ≤ min 40 (person.bbox.w * person.bbox.h / (W * H) * 1000) :=
        le_min (by norm_num) (by nlinarith)
      have hsc : 0 ≤ person.score * 30 := mul_nonneg hs (by norm_num)
      have hmin : (50:ℚ) ≤ min 100 (50 + person.score * 30 +
          min 40 (person.bbox.w * person.bbox.h / (W * H) * 1000)) :=
        le_min (by norm_num) (by linarith)
      have hmax : min 100 (50 + person.score * 30 +
          min 40 (person.bbox.w * person.bbox.h / (W * H) * 1000)) ≤ 100 :=
        min_le_left _ _
      split_ifs with hmob
      · constructor <;> linarith
      · constructor <;> linarith
    · rw [hfil]
      norm_num

/-- The C2 counterexample pass publishes the metrics (38, 70, 85, 65). -/
theorem c2_cex_eval :
    (detectObjects idleState vid640 1000 (some [mobileCex, personCex])).state.focusMetrics =
      ⟨38, 70, 85, 65⟩ := by
  norm_num [detectObjects, detectCore, idleState, vid640, initMetrics, preprocessVideo,
    applyNMS, processPredictions, sortByScoreDesc, insertByScore, nmsLoop, suppresses,
    applyTemporalSmoothing, similarDetections, validateMobileDetection,
    relevantThreshold_cell, relevantThreshold_person, beq_cell_cell, beq_cell_person,
    beq_person_person, beq_person_cell, computer_not_cell, computer_not_person,
    distracting_not_cell, distracting_not_person, matchThreshold_cell, matchThreshold_person,
    calculateIoU, iouEmptyBranch, iouIntersectArea, iouUnionArea, computeFocusMetrics,
    rawFocusScore, rawEyeContactScore, rawHeadPoseScore, jsRound, mobileCex, personCex,
    List.filter, min_def, max_def, abs_zero, Int.floor_eq_iff, mkDetections,
    getDetectionType_cell, getDetectionType_person, updateDetections, takeLast,
    not_mem_computer_cell, not_mem_computer_person, not_mem_distracting_cell,
    not_mem_distracting_person]

/-- `calculateIoU` is symmetric in its two boxes. -/
theorem calculateIoU_comm (a b : Box) : calculateIoU a b = calculateIoU b a := by
  simp only [calculateIoU, iouEmptyBranch, iouIntersectArea, iouUnionArea,
    max_comm a.x b.x, max_comm a.y b.y, min_comm (a.x + a.w) (b.x + b.w),
    min_comm (a.y + a.h) (b.y + b.h)]
  split_ifs with h
  · rfl
  · ring

/-- `calculateIoU` of a non-degenerate box with itself is 1. -/
theorem calculateIoU_self (a : Box) (hw : 0 < a.w) (hh : 0 < a.h) :
    calculateIoU a a = 1 := by
  have hb : ¬ iouEmptyBranch a a := by
    unfold iouEmptyBranch
    push_neg
    simp only [min_self, max_self]
    constructor <;> linarith
  rw [calculateIoU, if_neg hb]
  simp only [iouIntersectArea, iouUnionArea, min_self, max_self]
  have e1 : (a.x + a.w - a.x) * (a.y + a.h - a.y) = a.w * a.h := by ring
  rw [e1]
  have e3 : a.w * a.h + a.w * a.h - a.w * a.h = a.w * a.h := by ring
  rw [e3]
  exact div_self (by positivity)

/-- A box with a zero width or height sends `calculateIoU` into the
empty-intersection branch. -/
theorem degenerate_empty_branch (a b : Box)
    (h : a.w = 0 ∨ a.h = 0 ∨ b.w = 0 ∨ b.h = 0) : iouEmptyBranch a b := by
  unfold iouEmptyBranch
  rcases h with h | h | h | h
  · left
    rw [h, add_zero]
    exact le_trans (min_le_left _ _) (le_max_left _ _)
  · right
    rw [h, add_zero]
    exact le_trans (min_le_left _ _) (le_max_left _ _)
  · left
    rw [h, add_zero]
    exact le_trans (min_le_right _ _) (le_max_right _ _)
  · right
    rw [h, add_zero]
    exact le_trans (min_le_right _ _) (le_max_right _ _)

/-- The descending-score order maintained by the NMS sort. -/
def scoreGE (a b : Pred) : Prop := b.score ≤ a.score

theorem mem_insertByScore {p x : Pred} {l : List Pred} :
    x ∈ insertByScore p l ↔ x = p ∨ x ∈ l := by
  induction l with
  | nil => simp [insertByScore]
  | cons q qs ih =>
    simp only [insertByScore]
    split_ifs
    · simp [List.mem_cons]
    · simp only [List.mem_cons, ih]
      tauto

theorem pairwise_insertByScore {p : Pred} {l : List Pred}
    (h : l.Pairwise scoreGE) : (insertByScore p l).Pairwise scoreGE := by
  induction l with
  | nil => simp [insertByScore]
  | cons q qs ih =>
    simp only [insertByScore]
    split_ifs with hqp
    · refine List.Pairwise.cons ?_ h
      intro x hx
      rcases List.mem_cons.mp hx with rfl | hx
      · exact hqp
      · exact le_trans (List.rel_of_pairwise_cons h hx) hqp
    · refine List.Pairwise.cons ?_ (ih h.of_cons)
      intro x hx
      rcases mem_insertByScore.mp hx with rfl | hx
      · exact le_of_lt (lt_of_not_le hqp)
      · exact List.rel_of_pairwise_cons h hx

theorem pairwise_sortByScoreDesc (l : List Pred) :
    (sortByScoreDesc l).Pairwise scoreGE := by
  induction l with
  | nil => simp [sortByScoreDesc]
  | cons p rest ih => exact pairwise_insertByScore ih

theorem mem_sortByScoreDesc {x : Pred} {l : List Pred} :
    x ∈ sortByScoreDesc l ↔ x ∈ l := by
  induction l with
  | nil => simp [sortByScoreDesc]
  | cons p rest ih =>
    simp only [sortByScoreDesc, List.foldr_cons] at *
    rw [mem_insertByScore, ih, List.mem_cons]

theorem sortByScoreDesc_of_pairwise {l : List Pred}
    (h : l.Pairwise scoreGE) : sortByScoreDesc l = l := by
  induction l with
  | nil => rfl
  | cons p rest ih =>
    have htail : sortByScoreDesc rest = rest := ih h.of_cons
    show insertByScore p (sortByScoreDesc rest) = p :: rest
    rw [htail]
    cases rest with
    | nil => rfl
    | cons q qs =>
      have hpq : scoreGE p q := List.rel_of_pairwise_cons h (List.mem_cons_self _ _)
      show (if q.score ≤ p.score then p :: q :: qs else q :: insertByScore p qs) = p :: q :: qs
      rw [if_pos (show q.score ≤ p.score from hpq)]

theorem nmsLoop_sublist (t : ℚ) (kept l : List Pred) :
    (nmsLoop t kept l).Sublist l := by
  induction l generalizing kept with
  | nil => simp [nmsLoop]
  | cons q rest ih =>
    simp only [nmsLoop]
    split_ifs
    · exact (ih kept).trans (List.sublist_cons_self q rest)
    · exact (ih (q :: kept)).cons₂ q

theorem nmsLoop_not_suppressed (t : ℚ) {kept : List Pred} (l : List Pred)
    {p : Pred} (hp : p ∈ kept) :
    ∀ r ∈ nmsLoop t kept l, suppresses t p r = false := by
  induction l generalizing kept with
  | nil => simp [nmsLoop]
  | cons q rest ih =>
    simp only [nmsLoop]
    split_ifs with hany
    · exact ih hp
    · intro r hr
      rcases List.mem_cons.mp hr with rfl | hr
      · have h2 : ∀ x ∈ kept, ¬ suppresses t x r = true := by
          simpa [List.any_eq_true] using hany
        exact Bool.eq_false_iff.mpr (h2 p hp)
      · exact ih (List.mem_cons_of_mem q hp) r hr

theorem nmsLoop_pairwise (t : ℚ) (kept l : List Pred) :
    (nmsLoop t kept l).Pairwise (fun a b => suppresses t a b = false) := by
  induction l generalizing kept with
  | nil => simp [nmsLoop]
  | cons q rest ih =>
    simp only [nmsLoop]
    split_ifs with hany
    · exact ih kept
    · exact List.Pairwise.cons
        (fun r hr => nmsLoop_not_suppressed t rest (List.mem_cons_self q kept) r hr)
        (ih (q :: kept))

theorem nmsLoop_id (t : ℚ) {kept l : List Pred}
    (hl : l.Pairwise (fun a b => suppresses t a b = false))
    (hk : ∀ p ∈ kept, ∀ q ∈ l, suppresses t p q = false) :
    nmsLoop t kept l = l := by
  induction l generalizing kept with
  | nil => simp [nmsLoop]
  | cons q rest ih =>
    have hany : (kept.any fun p => suppresses t p q) = false := by
      rw [List.any_eq_false]
      intro p hp
      simp [hk p hp q (List.mem_cons_self q rest)]
    simp only [nmsLoop, hany, Bool.false_eq_true, if_false]
    congr 1
    refine ih hl.of_cons ?_
    intro p hp r hr
    rcases List.mem_cons.mp hp with rfl | hp
    · exact List.rel_of_pairwise_cons hl hr
    · exact hk p hp r (List.mem_cons_of_mem q hr)

theorem mem_processPredictions {x : Pred} {preds : List Pred} {t : ℚ}
    (hx : x ∈ processPredictions preds t) : x ∈ preds := by
  unfold processPredictions at hx
  exact mem_sortByScoreDesc.mp ((nmsLoop_sublist t [] (sortByScoreDesc preds)).mem hx)

theorem processPredictions_idem (preds : List Pred) (t : ℚ) :
    processPredictions (processPredictions preds t) t = processPredictions preds t := by
  have hsorted : (processPredictions preds t).Pairwise scoreGE :=
    (pairwise_sortByScoreDesc preds).sublist (nmsLoop_sublist t [] _)
  have hpair : (processPredictions preds t).Pairwise (fun a b => suppresses t a b = false) :=
    nmsLoop_pairwise t [] _
  show nmsLoop t [] (sortByScoreDesc (processPredictions preds t)) = _
  rw [sortByScoreDesc_of_pairwise hsorted]
  exact nmsLoop_id t hpair (by intro p hp; cases hp)

/-- The else-branch of `applyNMS`: the group split with the fixed mobile
threshold 0.2 and the caller-supplied threshold for the rest. -/
theorem applyNMS_split (l : List Pred) (t : ℚ) (h : ¬ l.length ≤ 1) :
    applyNMS l t =
      processPredictions (l.filter fun p => p.cls == "cell phone") (2/10) ++
      processPredictions (l.filter fun p => !(p.cls == "cell phone")) t := by
  rw [applyNMS, if_neg h]


/-- Lowering the threshold preserves suppression. -/
theorem suppresses_mono {t1 t2 : ℚ} (h : t1 ≤ t2) {x y : Pred}
    (hs : suppresses t2 x y = true) : suppresses t1 x y = true := by
  simp only [suppresses, Bool.and_eq_true, decide_eq_true_eq] at hs ⊢
  exact ⟨lt_of_le_of_lt h hs.1, hs.2⟩

/-- Raising the threshold preserves non-suppression. -/
theorem suppresses_mono_false {t1 t2 : ℚ} (h : t1 ≤ t2) {x y : Pred}
    (hs : suppresses t1 x y = false) : suppresses t2 x y = false := by
  rcases Bool.eq_false_or_eq_true (suppresses t2 x y) with h2 | h2
  · rw [suppresses_mono h h2] at hs
    cases hs
  · exact h2

/-- The greedy loop on a two-element list. -/
theorem nmsLoop_pair (t : ℚ) (x y : Pred) :
    nmsLoop t [] [x, y] = if suppresses t x y = true then [x] else [x, y] := by
  simp only [nmsLoop, List.any_nil, List.any_cons, Bool.or_false, Bool.false_eq_true,
    if_false]
  split_ifs <;> rfl

/-- The greedy loop on a three-element list. -/
theorem nmsLoop_triple (t : ℚ) (x y z : Pred) :
    nmsLoop t [] [x, y, z] =
      if suppresses t x y = true then
        (if suppresses t x z = true then [x] else [x, z])
      else
        (if (suppresses t y z || suppresses t x z) = true then [x, y] else [x, y, z]) := by
  simp only [nmsLoop, List.any_nil, List.any_cons, Bool.or_false, Bool.false_eq_true,
    if_false]
  split_ifs <;> rfl

/-- On lists of at most three predictions the greedy keep-count is monotone
in the threshold. -/
theorem nmsLoop3_mono {t1 t2 : ℚ} (h12 : t1 ≤ t2) (l : List Pred) (hlen : l.length ≤ 3) :
    (nmsLoop t1 [] l).length ≤ (nmsLoop t2 [] l).length := by
  match l with
  | [] => simp [nmsLoop]
  | [x] => simp [nmsLoop]
  | [x, y] =>
    rw [nmsLoop_pair, nmsLoop_pair]
    by_cases s2 : suppresses t2 x y = true
    · rw [if_pos s2, if_pos (suppresses_mono h12 s2)]
    · rw [if_neg s2]
      split_ifs <;> simp
  | [x, y, z] =>
    rw [nmsLoop_triple, nmsLoop_triple]
    by_cases sxy2 : suppresses t2 x y = true
    · rw [if_pos sxy2, if_pos (suppresses_mono h12 sxy2)]
      by_cases sxz2 : suppresses t2 x z = true
      · rw [if_pos sxz2, if_pos (suppresses_mono h12 sxz2)]
      · rw [if_neg sxz2]
        split_ifs <;> simp
    · rw [if_neg sxy2]
      by_cases sxy1 : suppresses t1 x y = true
      · rw [if_pos sxy1]
        split_ifs <;> simp
      · rw [if_neg sxy1]
        by_cases syz1 : (suppresses t1 y z || suppresses t1 x z) = true
        · rw [if_pos syz1]
          split_ifs <;> simp
        · rw [if_neg syz1]
          simp only [Bool.or_eq_true, not_or] at syz1
          have hyz1 : suppresses t1 y z = false := Bool.eq_false_iff.mpr syz1.1
          have hxz1 : suppresses t1 x z = false := Bool.eq_false_iff.mpr syz1.2
          have : (suppresses t2 y z || suppresses t2 x z) = false := by
            rw [suppresses_mono_false h12 hyz1, suppresses_mono_false h12 hxz1]
            rfl
          rw [if_neg (by simp [this])]
  | x :: y :: z :: w :: rest => simp at hlen

/-- Insertion grows the sort by one element. -/
theorem length_insertByScore (p : Pred) (l : List Pred) :
    (insertByScore p l).length = l.length + 1 := by
  induction l with
  | nil => rfl
  | cons q qs ih =>
    simp only [insertByScore]
    split_ifs <;> simp [ih]

/-- The stable sort preserves length. -/
theorem length_sortByScoreDesc (l : List Pred) :
    (sortByScoreDesc l).length = l.length := by
  induction l with
  | nil => rfl
  | cons p rest ih =>
    show (insertByScore p (sortByScoreDesc rest)).length = rest.length + 1
    rw [length_insertByScore, ih]

/-! ## Theorems -/

/-- C1.  The claim reads the validator as testing the aspect ratio
width/height and the area width·height; the code destructures
`const [width, height] = prediction.bbox` from `bbox = [x, y, width, height]`
and therefore tests x/y and x·y instead.  Evaluated at the two inputs below:
a square prediction (width = height, confidence 0.9) that the claim says is
always rejected is accepted, and a portrait prediction (width/height = 0.5,
area 5000 ≥ 1200, confidence 0.9) that the claim says is accepted is
rejected. -/
theorem c1_validator_reads_xy_slots :
    validateMobileDetection squareCellPhone = true ∧
    squareCellPhone.bbox.w = squareCellPhone.bbox.h ∧
    squareCellPhone.score = 9/10 ∧
    validateMobileDetection portraitCellPhone = false ∧
    portraitCellPhone.bbox.w / portraitCellPhone.bbox.h = 1/2 ∧
    portraitCellPhone.bbox.w * portraitCellPhone.bbox.h = 5000 ∧
    portraitCellPhone.score = 9/10 := by
  refine ⟨?_, ?_, ?_, ?_, ?_, ?_, ?_⟩ <;>
    norm_num [validateMobileDetection, squareCellPhone, portraitCellPhone]

/-- C4.  An invocation made while the model is not loaded, while a detection
is already in flight, or less than 100 ms after the start of the last
accepted invocation returns null and leaves the whole orchestrator state —
event log, focus metrics, both history windows and the last-invocation
timestamp — unchanged. -/
theorem c4_rejected_invocation_leaves_state (s : OrchState) (v : Video) (now : ℚ)
    (detectResult : Option (List Pred))
    (h : s.modelLoaded = false ∨ s.isDetecting = true ∨ now - s.lastDetectionTime < 100) :
    detectObjects s v now detectResult = ⟨none, s, false, false⟩ := by
  unfold detectObjects
  rcases h with h | h | h
  · rw [if_pos (Or.inl h)]
  · rw [if_pos (Or.inr (Or.inr h))]
  · by_cases h1 : s.modelLoaded = false ∨ v.readyState < 2 ∨ s.isDetecting = true
    · rw [if_pos h1]
    · rw [if_neg h1, if_pos h]

/-- Witness for C4: a second invocation arriving while the first is in
flight (and also within 100 ms of it) is rejected with the state intact. -/
theorem c4_rejected_invocation_leaves_state_witness :
    detectingState.isDetecting = true ∧
    detectObjects detectingState vid640 50 none = ⟨none, detectingState, false, false⟩ :=
  ⟨rfl, c4_rejected_invocation_leaves_state detectingState vid640 50 none (Or.inr (Or.inl rfl))⟩

/-- C5.  The claim (and spec §5) says the preprocessed canvas is released on
every exit path, including the one where the detector call throws.  On the
throw path the cleanup `processedCanvas.remove()` (part_007 lines 588–591)
sits inside the try block before the return and is skipped when control
jumps to the catch block, so the canvas created by this pass is never
released: evaluated on a loaded idle orchestrator with a decodable 640×480
frame and a throwing detector call, the pass creates a canvas and ends
without releasing it. -/
theorem c5_canvas_leaked_on_detector_throw :
    (detectObjects idleState vid640 1000 none).canvasCreated = true ∧
    (detectObjects idleState vid640 1000 none).canvasReleased = false ∧
    (detectObjects idleState vid640 1000 none).result = none := by
  refine ⟨?_, ?_, ?_⟩ <;>
    norm_num [detectObjects, idleState, vid640, preprocessVideo, initMetrics]

/-- C6.  Temporal smoothing only ever fuses a prediction with history
predictions collected by `similarDetections`, and every prediction in that
set has the same class as the current prediction and an IoU with it strictly
above the class-specific match threshold (0.4 for the device class, 0.5
otherwise): it never fuses across classes and never at or below the
threshold. -/
theorem c6_smoothing_fuses_same_class_above_threshold
    (prunedHistory : List HistoryEntry) (prediction pred : Pred)
    (hmem : pred ∈ similarDetections prunedHistory prediction) :
    pred.cls = prediction.cls ∧
    calculateIoU pred.bbox prediction.bbox > matchThreshold prediction.cls := by
  unfold similarDetections at hmem
  rw [List.mem_filter] at hmem
  obtain ⟨-, hcond⟩ := hmem
  simp only [Bool.and_eq_true, beq_iff_eq, decide_eq_true_eq] at hcond
  exact ⟨hcond.1, hcond.1 ▸ hcond.2⟩

/-- Witness for C6: a matching history prediction (same class, identical box,
IoU 1 > 0.5) is fused and indeed satisfies both conditions. -/
theorem c6_smoothing_fuses_same_class_above_threshold_witness :
    histPred ∈ similarDetections histOne probePred ∧
    (histPred.cls = probePred.cls ∧
     calculateIoU histPred.bbox probePred.bbox > matchThreshold probePred.cls) := by
  have hmem : histPred ∈ similarDetections histOne probePred := by
    norm_num [similarDetections, histOne, histPred, probePred, calculateIoU,
      iouEmptyBranch, iouIntersectArea, iouUnionArea, List.filter,
      matchThreshold_person, beq_person_person, min_def, max_def]
  exact ⟨hmem, c6_smoothing_fuses_same_class_above_threshold histOne probePred histPred hmem⟩

/-- C9, counterexample.  The claim says `iou(a, a) = 1.0` for EVERY box `a`;
for the degenerate box (0, 0, 0, 0) the code takes the empty-intersection
branch (`intersect_x2 <= intersect_x1`) and returns 0, not 1. -/
theorem c9_iou_degenerate_self_not_one :
    calculateIoU zeroBox zeroBox = 0 ∧ calculateIoU zeroBox zeroBox ≠ 1 := by
  have h : calculateIoU zeroBox zeroBox = 0 := by
    rw [calculateIoU, if_pos]
    unfold iouEmptyBranch zeroBox
    norm_num
  exact ⟨h, by rw [h]; norm_num⟩

/-- C9, amended.  `calculateIoU` is symmetric, returns exactly 0 whenever the
boxes do not overlap (the empty-intersection branch condition holds), and
returns 1 on every box with positive width and height compared with itself;
the original claim's `iou(a, a) = 1` fails only for degenerate boxes with
zero width or height. -/
theorem c9_iou_symm_disjoint_self (a b : Box) :
    calculateIoU a b = calculateIoU b a ∧
    (iouEmptyBranch a b → calculateIoU a b = 0) ∧
    (0 < a.w → 0 < a.h → calculateIoU a a = 1) :=
  ⟨calculateIoU_comm a b,
   fun h => by rw [calculateIoU, if_pos h],
   fun hw hh => calculateIoU_self a hw hh⟩

/-- Witness for C9: at the concrete boxes `boxA` (positive dimensions) and
`boxC` (disjoint from `boxA`) all three parts of the amended claim hold with
their hypotheses discharged. -/
theorem c9_iou_symm_disjoint_self_witness :
    calculateIoU boxA boxC = calculateIoU boxC boxA ∧
    calculateIoU boxA boxC = 0 ∧
    calculateIoU boxA boxA = 1 :=
  ⟨(c9_iou_symm_disjoint_self boxA boxC).1,
   (c9_iou_symm_disjoint_self boxA boxC).2.1
     (by unfold iouEmptyBranch boxA boxC; norm_num [min_def, max_def]),
   (c9_iou_symm_disjoint_self boxA boxC).2.2 (by norm_num [boxA]) (by norm_num [boxA])⟩

/-- C10.  For boxes with non-negative widths and heights `calculateIoU` is
total and bounded: the result always lies in [0, 1]; whenever the division by
the union area is reached (the empty-intersection branch is not taken) the
union area is strictly positive; and any box with zero width or height takes
the empty-intersection branch. -/
theorem c10_iou_total_bounded (a b : Box) (hw1 : 0 ≤ a.w) (hh1 : 0 ≤ a.h)
    (hw2 : 0 ≤ b.w) (hh2 : 0 ≤ b.h) :
    (0 ≤ calculateIoU a b ∧ calculateIoU a b ≤ 1) ∧
    (¬ iouEmptyBranch a b → 0 < iouUnionArea a b) ∧
    ((a.w = 0 ∨ a.h = 0 ∨ b.w = 0 ∨ b.h = 0) → iouEmptyBranch a b) := by
  by_cases hb : iouEmptyBranch a b
  · rw [calculateIoU, if_pos hb]
    exact ⟨⟨le_refl 0, by norm_num⟩, fun h => absurd hb h, fun _ => hb⟩
  · have hb' := hb
    unfold iouEmptyBranch at hb'
    push_neg at hb'
    obtain ⟨hx, hy⟩ := hb'
    have hxa : min (a.x + a.w) (b.x + b.w) - max a.x b.x ≤ a.w := by
      have h1 : min (a.x + a.w) (b.x + b.w) ≤ a.x + a.w := min_le_left _ _
      have h2 : a.x ≤ max a.x b.x := le_max_left _ _
      linarith
    have hxb : min (a.x + a.w) (b.x + b.w) - max a.x b.x ≤ b.w := by
      have h1 : min (a.x + a.w) (b.x + b.w) ≤ b.x + b.w := min_le_right _ _
      have h2 : b.x ≤ max a.x b.x := le_max_right _ _
      linarith
    have hya : min (a.y + a.h) (b.y + b.h) - max a.y b.y ≤ a.h := by
      have h1 : min (a.y + a.h) (b.y + b.h) ≤ a.y + a.h := min_le_left _ _
      have h2 : a.y ≤ max a.y b.y := le_max_left _ _
      linarith
    have hyb : min (a.y + a.h) (b.y + b.h) - max a.y b.y ≤ b.h := by
      have h1 : min (a.y + a.h) (b.y + b.h) ≤ b.y + b.h := min_le_right _ _
      have h2 : b.y ≤ max a.y b.y := le_max_right _ _
      linarith
    have hxpos : 0 < min (a.x + a.w) (b.x + b.w) - max a.x b.x := by linarith
    have hypos : 0 < min (a.y + a.h) (b.y + b.h) - max a.y b.y := by linarith
    have hinter : 0 < iouIntersectArea a b := by
      unfold iouIntersectArea; exact mul_pos hxpos hypos
    have hia : iouIntersectArea a b ≤ a.w * a.h := by
      unfold iouIntersectArea; exact mul_le_mul hxa hya (le_of_lt hypos) hw1
    have hib : iouIntersectArea a b ≤ b.w * b.h := by
      unfold iouIntersectArea; exact mul_le_mul hxb hyb (le_of_lt hypos) hw2
    have hunion : 0 < iouUnionArea a b := by
      unfold iouUnionArea; linarith
    rw [calculateIoU, if_neg hb]
    refine ⟨⟨div_nonneg (le_of_lt hinter) (le_of_lt hunion), ?_⟩,
      fun _ => hunion, fun hdeg => absurd (degenerate_empty_branch a b hdeg) hb⟩
    rw [div_le_one hunion]
    unfold iouUnionArea
    linarith

/-- Witness for C10: the bounds at the concrete overlapping boxes `boxA` and
`boxB`, whose dimensions are non-negative. -/
theorem c10_iou_total_bounded_witness :
    (0 ≤ calculateIoU boxA boxB ∧ calculateIoU boxA boxB ≤ 1) ∧
    (¬ iouEmptyBranch boxA boxB → 0 < iouUnionArea boxA boxB) ∧
    ((boxA.w = 0 ∨ boxA.h = 0 ∨ boxB.w = 0 ∨ boxB.h = 0) → iouEmptyBranch boxA boxB) :=
  c10_iou_total_bounded boxA boxB (by norm_num [boxA]) (by norm_num [boxA])
    (by norm_num [boxB]) (by norm_num [boxB])

/-- Applying `slice(-50)` again after appending never loses more than the
plain append would: re-capping a capped log agrees with capping the full
history. -/
theorem takeLast_append_takeLast (l b : List Detection) :
    takeLast 50 (takeLast 50 l ++ b) = takeLast 50 (l ++ b) := by
  unfold takeLast
  by_cases h : l.length ≤ 50
  · have h0 : l.length - 50 = 0 := Nat.sub_eq_zero_of_le h
    rw [h0, List.drop_zero]
  · push_neg at h
    rw [← List.drop_append_of_le_length (by omega)]
    rw [List.drop_drop]
    congr 1
    simp only [List.length_drop, List.length_append]
    omega

/-- Folding the event-log update over a sequence of batches from a capped log
yields the cap of the whole concatenated history. -/
theorem foldl_updateDetections (batches : List (List Detection)) (l : List Detection) :
    batches.foldl updateDetections (takeLast 50 l) = takeLast 50 (l ++ batches.flatten) := by
  induction batches generalizing l with
  | nil => simp [List.foldl_nil, List.flatten_nil, List.append_nil]
  | cons b bs ih =>
    rw [List.foldl_cons]
    have hstep : updateDetections (takeLast 50 l) b = takeLast 50 (l ++ b) := by
      unfold updateDetections
      by_cases hb : b.isEmpty
      · rw [if_pos hb]
        rw [List.isEmpty_iff.mp hb, List.append_nil]
      · rw [if_neg (by simp [hb])]
        exact takeLast_append_takeLast l b
    rw [hstep, ih (l ++ b), List.flatten_cons, List.append_assoc]

/-- C3.  The detection event log never grows beyond 50 entries, and eviction
is FIFO while retained entries keep their order: every sequence of passes
appending 60 events in total to an empty log ends with exactly the last 50
events of the concatenated stream, in order — the 10 oldest are the ones
evicted. -/
theorem c3_event_log_fifo_bounded :
    (∀ prev newDetections : List Detection, prev.length ≤ 50 →
      (updateDetections prev newDetections).length ≤ 50) ∧
    (∀ batches : List (List Detection), (batches.map List.length).sum = 60 →
      batches.foldl updateDetections [] = batches.flatten.drop 10 ∧
      (batches.foldl updateDetections []).length = 50) := by
  constructor
  · intro prev nd h
    unfold updateDetections
    split_ifs
    · exact h
    · unfold takeLast
      simp only [List.length_drop]
      omega
  · intro batches hsum
    have hfold := foldl_updateDetections batches []
    simp only [takeLast, List.length_nil, Nat.zero_sub, List.drop_zero,
      List.nil_append] at hfold
    have hflat : batches.flatten.length = 60 := by
      rw [List.length_flatten]
      exact hsum
    rw [hfold]
    constructor
    · rw [hflat]
    · simp only [List.length_drop, hflat]

/-- Witness for C3: a single batch of 60 events lands in an empty log as its
last 50 events; a single-event append to an empty log keeps the bound. -/
theorem c3_event_log_fifo_bounded_witness :
    (updateDetections [] [dummyDetection]).length ≤ 50 ∧
    ([List.replicate 60 dummyDetection].foldl updateDetections [] =
       [List.replicate 60 dummyDetection].flatten.drop 10 ∧
     ([List.replicate 60 dummyDetection].foldl updateDetections []).length = 50) :=
  ⟨c3_event_log_fifo_bounded.1 [] [dummyDetection] (by simp),
   c3_event_log_fifo_bounded.2 [List.replicate 60 dummyDetection] (by simp)⟩

/-- C2, counterexample.  A reachable detection pass (loaded idle
orchestrator, 640×480 frame, detector returning one valid device prediction
with confidence 416/525 and one person prediction with confidence 0.616,
both inside the frame with confidences in [0, 1]) publishes the metrics
(38, 70, 85, 65), yet the rounded mean of the three published scores is
round(193/3) = 64 ≠ 65: the code rounds the mean of the UNROUNDED scores
(38.4 + 70.4 + 85)/3 = 64.6 ↦ 65, so `overallAttention` is not the rounded
mean of the published scores as the claim states. -/
theorem c2_overall_not_mean_of_published :
    (∀ p ∈ [mobileCex, personCex], 0 ≤ p.score ∧ p.score ≤ 1 ∧ 0 ≤ p.bbox.x ∧
      0 ≤ p.bbox.y ∧ 0 ≤ p.bbox.w ∧ 0 ≤ p.bbox.h ∧ p.bbox.x + p.bbox.w ≤ 640 ∧
      p.bbox.y + p.bbox.h ≤ 480) ∧
    (detectObjects idleState vid640 1000 (some [mobileCex, personCex])).state.focusMetrics =
      ⟨38, 70, 85, 65⟩ ∧
    (detectObjects idleState vid640 1000 (some [mobileCex, personCex])).state.focusMetrics.overallAttention ≠
      jsRound
        ((((detectObjects idleState vid640 1000 (some [mobileCex, personCex])).state.focusMetrics.focusScore : ℚ) +
          ((detectObjects idleState vid640 1000 (some [mobileCex, personCex])).state.focusMetrics.eyeContactScore : ℚ) +
          ((detectObjects idleState vid640 1000 (some [mobileCex, personCex])).state.focusMetrics.headPoseScore : ℚ)) / 3) := by
  refine ⟨?_, c2_cex_eval, ?_⟩
  · intro p hp
    fin_cases hp <;> norm_num [mobileCex, personCex]
  · rw [c2_cex_eval]
    norm_num [jsRound, Int.floor_eq_iff]

/-- C2, amended.  For every prediction set scored by a pass (confidences in
[0, 1], boxes inside the processed frame) the four published scores are
integers in [0, 100], and `overallAttention` is the rounded mean of the
three UNROUNDED scores — which can differ by one from the rounded mean of
the three published (rounded) scores. -/
theorem c2_scores_bounded_overall_from_raw (preds : List Pred) (W H : ℚ)
    (hW : 0 < W) (hH : 0 < H)
    (hp : ∀ p ∈ preds, 0 ≤ p.score ∧ p.score ≤ 1 ∧ 0 ≤ p.bbox.x ∧ 0 ≤ p.bbox.y ∧
      0 ≤ p.bbox.w ∧ 0 ≤ p.bbox.h ∧ p.bbox.x + p.bbox.w ≤ W ∧ p.bbox.y + p.bbox.h ≤ H) :
    (0 ≤ (computeFocusMetrics preds W H).focusScore ∧
      (computeFocusMetrics preds W H).focusScore ≤ 100) ∧
    (0 ≤ (computeFocusMetrics preds W H).eyeContactScore ∧
      (computeFocusMetrics preds W H).eyeContactScore ≤ 100) ∧
    (0 ≤ (computeFocusMetrics preds W H).headPoseScore ∧
      (computeFocusMetrics preds W H).headPoseScore ≤ 100) ∧
    (0 ≤ (computeFocusMetrics preds W H).overallAttention ∧
      (computeFocusMetrics preds W H).overallAttention ≤ 100) ∧
    (computeFocusMetrics preds W H).overallAttention =
      jsRound ((rawFocusScore preds + rawEyeContactScore preds W +
        rawHeadPoseScore preds W H) / 3) := by
  have hf := rawFocusScore_bounds preds
  have he := rawEyeContactScore_bounds preds W hW fun p hmem =>
    ⟨(hp p hmem).1, (hp p hmem).2.2.1, (hp p hmem).2.2.2.2.1, (hp p hmem).2.2.2.2.2.2.1⟩
  have hh := rawHeadPoseScore_bounds preds W H hW hH fun p hmem =>
    ⟨(hp p hmem).1, (hp p hmem).2.2.2.2.1, (hp p hmem).2.2.2.2.2.1⟩
  have hm0 : 0 ≤ (rawFocusScore preds + rawEyeContactScore preds W +
      rawHeadPoseScore preds W H) / 3 :=
    div_nonneg (by linarith [hf.1, he.1, hh.1]) (by norm_num)
  have hm1 : (rawFocusScore preds + rawEyeContactScore preds W +
      rawHeadPoseScore preds W H) / 3 ≤ 100 := by
    rw [div_le_iff₀ (by norm_num : (0:ℚ) < 3)]
    linarith [hf.2, he.2, hh.2]
  simp only [computeFocusMetrics]
  exact ⟨jsRound_bounds _ hf.1 hf.2, jsRound_bounds _ he.1 he.2,
    jsRound_bounds _ hh.1 hh.2, jsRound_bounds _ hm0 hm1, trivial⟩

/-- Witness for C2: the amended claim at the empty prediction set on a
640×480 frame. -/
theorem c2_scores_bounded_overall_from_raw_witness :
    (0 ≤ (computeFocusMetrics [] 640 480).focusScore ∧
      (computeFocusMetrics [] 640 480).focusScore ≤ 100) ∧
    (0 ≤ (computeFocusMetrics [] 640 480).eyeContactScore ∧
      (computeFocusMetrics [] 640 480).eyeContactScore ≤ 100) ∧
    (0 ≤ (computeFocusMetrics [] 640 480).headPoseScore ∧
      (computeFocusMetrics [] 640 480).headPoseScore ≤ 100) ∧
    (0 ≤ (computeFocusMetrics [] 640 480).overallAttention ∧
      (computeFocusMetrics [] 640 480).overallAttention ≤ 100) ∧
    (computeFocusMetrics [] 640 480).overallAttention =
      jsRound ((rawFocusScore [] + rawEyeContactScore [] 640 +
        rawHeadPoseScore [] 640 480) / 3) :=
  c2_scores_bounded_overall_from_raw [] 640 480 (by norm_num) (by norm_num)
    (by intro p hp; cases hp)

/-- C7.  The suppressor is idempotent: for every prediction list and IoU
threshold, applying `applyNMS` to its own output with the same threshold
returns that output unchanged. -/
theorem c7_nms_idempotent (predictions : List Pred) (iouThreshold : ℚ) :
    applyNMS (applyNMS predictions iouThreshold) iouThreshold =
      applyNMS predictions iouThreshold := by
  by_cases h1 : predictions.length ≤ 1
  · have he : applyNMS predictions iouThreshold = predictions := by
      rw [applyNMS, if_pos h1]
    rw [he, applyNMS, if_pos h1]
  · have hsplit := applyNMS_split predictions iouThreshold h1
    by_cases h2 : (applyNMS predictions iouThreshold).length ≤ 1
    · rw [applyNMS, if_pos h2]
    · have hMcls : ∀ x ∈ processPredictions
          (predictions.filter fun p => p.cls == "cell phone") (2/10),
          (x.cls == "cell phone") = true :=
        fun x hx => (List.mem_filter.mp (mem_processPredictions hx)).2
      have hTcls : ∀ x ∈ processPredictions
          (predictions.filter fun p => !(p.cls == "cell phone")) iouThreshold,
          (x.cls == "cell phone") = false := fun x hx => by
        have h := (List.mem_filter.mp (mem_processPredictions hx)).2
        simpa using h
      have hselfM : List.filter (fun p => p.cls == "cell phone")
          (processPredictions (predictions.filter fun p => p.cls == "cell phone") (2/10)) =
          processPredictions (predictions.filter fun p => p.cls == "cell phone") (2/10) :=
        List.filter_eq_self.mpr hMcls
      have hselfT : List.filter (fun p => !(p.cls == "cell phone"))
          (processPredictions (predictions.filter fun p => !(p.cls == "cell phone")) iouThreshold) =
          processPredictions (predictions.filter fun p => !(p.cls == "cell phone")) iouThreshold :=
        List.filter_eq_self.mpr fun a ha => by simp [hTcls a ha]
      have hnilT : List.filter (fun p => p.cls == "cell phone")
          (processPredictions (predictions.filter fun p => !(p.cls == "cell phone")) iouThreshold) = [] := by
        rw [List.filter_eq_nil_iff]
        intro a ha
        simp [hTcls a ha]
      have hnilM : List.filter (fun p => !(p.cls == "cell phone"))
          (processPredictions (predictions.filter fun p => p.cls == "cell phone") (2/10)) = [] := by
        rw [List.filter_eq_nil_iff]
        intro a ha
        simp [hMcls a ha]
      have hfM : List.filter (fun p => p.cls == "cell phone")
          (processPredictions (predictions.filter fun p => p.cls == "cell phone") (2/10) ++
           processPredictions (predictions.filter fun p => !(p.cls == "cell phone")) iouThreshold) =
          processPredictions (predictions.filter fun p => p.cls == "cell phone") (2/10) := by
        rw [List.filter_append, hselfM, hnilT, List.append_nil]
      have hfT : List.filter (fun p => !(p.cls == "cell phone"))
          (processPredictions (predictions.filter fun p => p.cls == "cell phone") (2/10) ++
           processPredictions (predictions.filter fun p => !(p.cls == "cell phone")) iouThreshold) =
          processPredictions (predictions.filter fun p => !(p.cls == "cell phone")) iouThreshold := by
        rw [List.filter_append, hnilM, hselfT, List.nil_append]
      rw [applyNMS_split (applyNMS predictions iouThreshold) iouThreshold h2, hsplit,
        hfM, hfT, processPredictions_idem, processPredictions_idem]

/-- C8, counterexample.  Keeping more boxes at a higher threshold is not
guaranteed: on four same-class predictions (descending confidences 0.9, 0.8,
0.7, 0.6) the suppressor keeps 3 boxes at threshold 0.3 but only 2 at the
higher threshold 0.35 — at 0.3 the top box suppresses the second, leaving
the third and fourth alive; at 0.35 the second survives and then suppresses
both of them. -/
theorem c8_nms_threshold_monotonicity_fails :
    (3/10 : ℚ) ≤ 35/100 ∧
    (applyNMS [nmsA, nmsB, nmsC, nmsD] (35/100)).length <
      (applyNMS [nmsA, nmsB, nmsC, nmsD] (3/10)).length := by
  constructor
  · norm_num
  · have h1 : applyNMS [nmsA, nmsB, nmsC, nmsD] (35/100) = [nmsA, nmsB] := by
      norm_num [applyNMS, processPredictions, sortByScoreDesc, insertByScore, nmsLoop,
        suppresses, calculateIoU, iouEmptyBranch, iouIntersectArea, iouUnionArea,
        nmsA, nmsB, nmsC, nmsD, List.filter, beq_person_person, beq_person_cell,
        min_def, max_def]
    have h2 : applyNMS [nmsA, nmsB, nmsC, nmsD] (3/10) = [nmsA, nmsC, nmsD] := by
      norm_num [applyNMS, processPredictions, sortByScoreDesc, insertByScore, nmsLoop,
        suppresses, calculateIoU, iouEmptyBranch, iouIntersectArea, iouUnionArea,
        nmsA, nmsB, nmsC, nmsD, List.filter, beq_person_person, beq_person_cell,
        min_def, max_def]
    rw [h1, h2]
    norm_num

/-- C8, amended.  For every prediction list with at most three predictions
and thresholds t1 ≤ t2, the number of predictions kept by `applyNMS` at t2
is at least the number kept at t1; with four or more predictions
monotonicity can fail (see the counterexample). -/
theorem c8_nms_monotone_upto_three (preds : List Pred) (t1 t2 : ℚ)
    (hlen : preds.length ≤ 3) (h12 : t1 ≤ t2) :
    (applyNMS preds t1).length ≤ (applyNMS preds t2).length := by
  by_cases h1 : preds.length ≤ 1
  · rw [applyNMS, if_pos h1, applyNMS, if_pos h1]
  · rw [applyNMS_split preds t1 h1, applyNMS_split preds t2 h1,
      List.length_append, List.length_append]
    refine Nat.add_le_add_left ?_ _
    show (nmsLoop t1 [] (sortByScoreDesc _)).length ≤ (nmsLoop t2 [] (sortByScoreDesc _)).length
    refine nmsLoop3_mono h12 _ ?_
    rw [length_sortByScoreDesc]
    exact le_trans (List.length_filter_le _ _) hlen

/-- Witness for C8: the amended monotonicity at a concrete two-element list
and thresholds 0.3 ≤ 0.35. -/
theorem c8_nms_monotone_upto_three_witness :
    (applyNMS [nmsA, nmsB] (3/10)).length ≤ (applyNMS [nmsA, nmsB] (35/100)).length :=
  c8_nms_monotone_upto_three [nmsA, nmsB] (3/10) (35/100) (by norm_num) (by norm_num)

end FocusGuard
